import Mathlib

/-
Verification of the sec_nlp pipeline core (sec_nlp/core/pipeline.py and
sec_nlp/core/llm/chains.py) against its natural-language specification.

Shallow embedding notes:
- Python `json.loads` is standard-library code external to the repository; it
  is modelled as an oracle parameter `parseJson : String → Option JValue`
  (None models a raised decode exception, which the source catches).
- Pydantic validation of `SummaryPayload` is modelled over JSON-origin values
  (output of json.loads): a `float` field accepts JSON numbers (ints coerce to
  float), `str` accepts only strings, `list[str]` only arrays of strings,
  absent or null optional fields become None, extra keys are ignored
  (pydantic-dataclass default).  Lax string-to-number coercion of
  string-encoded floats is not modelled; no claim depends on it.
- Python str.strip/lower/upper are modelled on ASCII (the repository's
  symbols, keywords and JSON field names are ASCII).
- `uuid4()` is modelled by a fresh-counter id supply; the property the source
  relies on (freshness/uniqueness per call) is preserved.
-/

namespace SecNlp

/-- JSON values as produced by Python `json.loads`. Objects are association
lists of distinct keys in insertion order (Python dict semantics). -/
inductive JValue where
  | null : JValue
  | boolean (b : Bool) : JValue
  | num (q : Rat) : JValue
  | str (s : String) : JValue
  | arr (elems : List JValue) : JValue
  | obj (fields : List (String × JValue)) : JValue

/-- Python `d[k]` / `d.get(k)` on a JSON object: first binding for `k`. -/
def jlookup (kvs : List (String × JValue)) (k : String) : Option JValue :=
  match kvs with
  | [] => none
  | (k', v) :: rest => if k' = k then some v else jlookup rest k

/-- Characters removed by Python `str.strip()` (ASCII whitespace). -/
def isPySpace (c : Char) : Bool :=
  c = ' ' || c = '\t' || c = '\n' || c = '\r' || c = '\x0b' || c = '\x0c'

/-- Strip leading and trailing whitespace from a character list. -/
def stripList (l : List Char) : List Char :=
  ((l.dropWhile isPySpace).reverse.dropWhile isPySpace).reverse

/-- Python `s.strip()`. -/
def pyStrip (s : String) : String := String.mk (stripList s.data)

/-- Python `s.lower()` (ASCII). -/
def pyLower (s : String) : String := String.mk (s.data.map Char.toLower)

/-- Python `s.upper()` (ASCII). -/
def pyUpper (s : String) : String := String.mk (s.data.map Char.toUpper)

/-- The pydantic dataclass `SummaryPayload` of sec_nlp/core/llm/chains.py:
optional summary, points, confidence (bounded to [0,1] by the field
constraint `ge=0.0, le=1.0`), error and raw_output. -/
structure SummaryPayload where
  summary : Option String := none
  points : Option (List String) := none
  confidence : Option Rat := none
  error : Option String := none
  raw_output : Option String := none
deriving Repr, DecidableEq

/-- Cleanup of the `summary` entry inside `validate_from_json`:
`if isinstance(s, str): s = s.strip(); data["summary"] = s or None`. -/
def cleanSummaryField (v : JValue) : JValue :=
  match v with
  | .str s => if pyStrip s = "" then .null else .str (pyStrip s)
  | v => v

/-- One entry of the `points` cleanup comprehension
`[p.strip() for p in pts if isinstance(p, str) and p.strip()]`. -/
def cleanPointEntry (v : JValue) : Option JValue :=
  match v with
  | .str p => if pyStrip p = "" then none else some (.str (pyStrip p))
  | _ => none

/-- Cleanup of the `points` entry inside `validate_from_json`. -/
def cleanPointsField (v : JValue) : JValue :=
  match v with
  | .arr xs => .arr (xs.filterMap cleanPointEntry)
  | v => v

/-- Per-key action of the cleanup block: `summary` and `points` entries are
rewritten, every other entry is left alone. -/
def cleanField (k : String) (v : JValue) : JValue :=
  if k = "summary" then cleanSummaryField v
  else if k = "points" then cleanPointsField v
  else v

/-- The pre-validation cleanup block of `SummaryPayload.validate_from_json`
(applied only when the decoded value is a dict). -/
def cleanData (data : JValue) : JValue :=
  match data with
  | .obj kvs => .obj (kvs.map (fun kv => (kv.1, cleanField kv.1 kv.2)))
  | v => v

/-- Pydantic validation of an optional `str` field from a JSON value. -/
def validateOptStr (v : Option JValue) : Option (Option String) :=
  match v with
  | none => some none
  | some .null => some none
  | some (.str s) => some (some s)
  | some _ => none

/-- Extract a list of strings from JSON array elements (all-or-nothing). -/
def strListOf : List JValue → Option (List String)
  | [] => some []
  | .str s :: rest => (strListOf rest).map (fun l => s :: l)
  | _ :: _ => none

/-- Pydantic validation of the optional `list[str]` field `points`. -/
def validateOptStrList (v : Option JValue) : Option (Option (List String)) :=
  match v with
  | none => some none
  | some .null => some none
  | some (.arr xs) =>
    match strListOf xs with
    | some l => some (some l)
    | none => none
  | some _ => none

/-- Pydantic validation of `confidence : float | None` with `ge=0, le=1`. -/
def validateConfidence (v : Option JValue) : Option (Option Rat) :=
  match v with
  | none => some none
  | some .null => some none
  | some (.num q) => if 0 ≤ q ∧ q ≤ 1 then some (some q) else none
  | some _ => none

/-- `SummaryPayload._adapter().validate_python(data)`: succeeds only on a
dict whose recognised fields all validate; `none` models ValidationError. -/
def validatePayload (data : JValue) : Option SummaryPayload :=
  match data with
  | .obj kvs =>
    (validateOptStr (jlookup kvs "summary")).bind (fun s =>
      (validateOptStrList (jlookup kvs "points")).bind (fun p =>
        (validateConfidence (jlookup kvs "confidence")).bind (fun c =>
          (validateOptStr (jlookup kvs "error")).bind (fun e =>
            (validateOptStr (jlookup kvs "raw_output")).map (fun r =>
              { summary := s, points := p, confidence := c, error := e,
                raw_output := r })))))
  | _ => none

/-- Payload returned by `validate_from_json` when JSON decoding raises. -/
def parseErrorPayload (raw : String) : SummaryPayload :=
  { error := some "JSON parse failed", raw_output := some raw }

/-- Payload returned by `validate_from_json` on a ValidationError. -/
def schemaErrorPayload (raw : String) : SummaryPayload :=
  { error := some "Schema validation failed", raw_output := some raw }

/-- `SummaryPayload.validate_from_json(raw)`: decode, clean, validate, with
the two error fallbacks of the source. `parseJson` is the json.loads oracle
(`none` = decode exception). -/
def validate_from_json (parseJson : String → Option JValue) (raw : String) :
    SummaryPayload :=
  match parseJson raw with
  | none => parseErrorPayload raw
  | some data =>
    match validatePayload (cleanData data) with
    | some p => p
    | none => schemaErrorPayload raw

/-- JSON image of an optional string (pydantic `dump_python` then json.dump). -/
def joStr (v : Option String) : JValue :=
  match v with
  | none => .null
  | some s => .str s

/-- JSON image of an optional string list. -/
def joStrList (v : Option (List String)) : JValue :=
  match v with
  | none => .null
  | some l => .arr (l.map .str)

/-- JSON image of an optional number. -/
def joRat (v : Option Rat) : JValue :=
  match v with
  | none => .null
  | some q => .num q

/-- `SummaryPayload._adapter().dump_python(payload)`: a dict carrying all
five dataclass fields, in declaration order. -/
def dumpPayload (p : SummaryPayload) : List (String × JValue) :=
  [("summary", joStr p.summary), ("points", joStrList p.points),
   ("confidence", joRat p.confidence), ("error", joStr p.error),
   ("raw_output", joStr p.raw_output)]

/-- `SummarizationOutput` TypedDict of chains.py: a status tag plus the
dumped payload dict (both keys are total, hence plain fields). -/
structure SummarizationOutput where
  status : String
  summary : List (String × JValue)

/-- The `_validate` closure of `build_summarization_runnable`: validate (or
wrap verbatim when `require_json` is false), tag with status, dump. -/
def validateStep (require_json : Bool) (parseJson : String → Option JValue)
    (raw : String) : SummarizationOutput :=
  let payload :=
    if require_json then validate_from_json parseJson raw
    else { summary := some raw : SummaryPayload }
  { status := if payload.error = none then "ok" else "error",
    summary := dumpPayload payload }

/-- `SummarizationInput` TypedDict of chains.py. -/
structure SummarizationInput where
  chunk : String
  symbol : String
  search_term : String

/-- Type and message of a Python exception raised by a batch call. -/
structure ExnInfo where
  ename : String
  emsg : String

/-- The substituted `SummarizationResult` built in `Pipeline.run`'s `except`
branch: `SummarizationResult(summary="(null)", error=f"Exception: ...")`.
`SummarizationResult` is a `total=False` TypedDict, so only the two keys
passed at the construction site are present. -/
def errorSubstitute (e : ExnInfo) : List (String × JValue) :=
  [("summary", .str "(null)"),
   ("error", .str ("Exception: " ++ e.ename ++ ": " ++ e.emsg))]

/-- One window of `Pipeline.run`'s batching loop: `graph.batch(window)` is
the oracle (`.error` models a raised exception, caught by the source); on
success each output's `summary` entry is appended (`r.get("summary", ...)` —
the key is total on `SummarizationOutput`, so the default is never taken);
on exception every item of the window is substituted. -/
def windowResult (oracle : List SummarizationInput → Except ExnInfo (List SummarizationOutput))
    (w : List SummarizationInput) : List (List (String × JValue)) :=
  match oracle w with
  | .ok rs => rs.map (fun r => r.summary)
  | .error e => w.map (fun _ => errorSubstitute e)

/-- Fuelled splitting of a list into consecutive windows of size `bs`
(`inputs[i : i + batch_size]` for `i in range(0, len(inputs), batch_size)`).
Fuel `inputs.length` suffices whenever `0 < bs`. -/
def chunksOfAux (bs : Nat) : Nat → List α → List (List α)
  | 0, _ => []
  | _, [] => []
  | fuel + 1, xs => xs.take bs :: chunksOfAux bs fuel (xs.drop bs)

/-- Consecutive windows of size `bs` of a list. -/
def chunksOf (bs : Nat) (xs : List α) : List (List α) :=
  chunksOfAux bs xs.length xs

/-- Fuelled form of the summarization loop of `Pipeline.run` (lines 570-592):
process each window, substituting error results when the batch raises. -/
def summarizeWindowsAux (oracle : List SummarizationInput → Except ExnInfo (List SummarizationOutput))
    (bs : Nat) : Nat → List SummarizationInput → List (List (String × JValue))
  | 0, _ => []
  | _, [] => []
  | fuel + 1, inputs =>
    windowResult oracle (inputs.take bs) ++ summarizeWindowsAux oracle bs fuel (inputs.drop bs)

/-- The `summaries` list accumulated by `Pipeline.run` for one document. -/
def summarizeWindows (oracle : List SummarizationInput → Except ExnInfo (List SummarizationOutput))
    (bs : Nat) (inputs : List SummarizationInput) : List (List (String × JValue)) :=
  summarizeWindowsAux oracle bs inputs.length inputs

/-- The JSON object written by `json.dump` in `Pipeline.run` (lines 598-608):
keys symbol, document, collection, summaries. -/
def buildArtifact (symbol document collection : String)
    (summaries : List (List (String × JValue))) : JValue :=
  .obj [("symbol", .str symbol), ("document", .str document),
        ("collection", .str collection),
        ("summaries", .arr (summaries.map .obj))]

/-- Artifact produced for one document by `Pipeline.run`'s summarize+write
phase, given the batch oracle and batch size. -/
def docArtifact (oracle : List SummarizationInput → Except ExnInfo (List SummarizationOutput))
    (bs : Nat) (symbol document collection : String)
    (inputs : List SummarizationInput) : JValue :=
  buildArtifact symbol document collection (summarizeWindows oracle bs inputs)

/-- Characters kept verbatim by `_slugify`'s regex class `[a-z0-9-]`. -/
def isSlugChar (c : Char) : Bool :=
  ('a' ≤ c && c ≤ 'z') || ('0' ≤ c && c ≤ '9') || c = '-'

/-- `re.sub(r"[^a-z0-9-]+", "-", s)`: each maximal run of excluded
characters becomes a single hyphen. The flag records whether the previous
character was part of such a run. -/
def collapseRuns (inRun : Bool) : List Char → List Char
  | [] => []
  | c :: cs =>
    if isSlugChar c then c :: collapseRuns false cs
    else if inRun then collapseRuns true cs
    else '-' :: collapseRuns true cs

/-- Python `s.strip("-")`. -/
def stripHyphens (l : List Char) : List Char :=
  ((l.dropWhile (fun c => c = '-')).reverse.dropWhile (fun c => c = '-')).reverse

/-- `_slugify` of sec_nlp/core/pipeline.py:
`re.sub(r"[^a-z0-9-]+", "-", s.lower()).strip("-")`. -/
def _slugify (s : String) : String :=
  String.mk (stripHyphens (collapseRuns false (s.data.map Char.toLower)))

/-- Characters kept verbatim by `_safe_name`'s default class `[a-zA-Z0-9._-]`. -/
def isSafeChar (c : Char) : Bool :=
  ('a' ≤ c && c ≤ 'z') || ('A' ≤ c && c ≤ 'Z') || ('0' ≤ c && c ≤ '9') ||
    c = '.' || c = '_' || c = '-'

/-- `re.sub(rf"[^a-zA-Z0-9._-]+", "_", s)`: runs of excluded characters
become a single underscore. -/
def safeCollapseRuns (inRun : Bool) : List Char → List Char
  | [] => []
  | c :: cs =>
    if isSafeChar c then c :: safeCollapseRuns false cs
    else if inRun then safeCollapseRuns true cs
    else '_' :: safeCollapseRuns true cs

/-- `_safe_name` of sec_nlp/core/pipeline.py: sanitize then truncate to 120. -/
def _safe_name (s : String) : String :=
  String.mk ((safeCollapseRuns false s.data).take 120)

/-- `Pipeline._collection_slug(symbol)`: slug of `f"{symbol.upper()}-{keyword}"`,
prefixed with `settings.qdrant_collection_prefix` when that is non-empty
(Python truthiness of the prefix string). -/
def _collection_slug (pfx : String) (symbol : String) (keyword : String) : String :=
  let base := _slugify (pyUpper symbol ++ "-" ++ keyword)
  if pfx = "" then base else pfx ++ "_" ++ base

/-- Output artifact filename of `Pipeline.run` (line 596):
`f"{symbol.lower()}_{safe_kw}_{safe_doc}.summary.json"`. -/
def artifactFileName (symbol keyword docStem : String) : String :=
  pyLower symbol ++ "_" ++ _slugify keyword ++ "_" ++ _safe_name docStem ++ ".summary.json"

/-- Directory contents as a map from filename to JSON content; models the
output directory that `open(out_file, "w")` + `json.dump` write into. -/
abbrev FileSystem : Type := String → Option JValue

/-- `open(path, "w")` + `json.dump(content)`: truncating write. -/
def writeFile (fs : FileSystem) (path : String) (content : JValue) : FileSystem :=
  fun q => if q = path then some content else fs q

/-- One document's artifact write in `Pipeline.run`: the deterministic
filename is computed from (symbol, keyword, document stem) and the artifact
is written over whatever was there. -/
def writeArtifact (fs : FileSystem) (symbol keyword docStem : String)
    (content : JValue) : FileSystem :=
  writeFile fs (artifactFileName symbol keyword docStem) content

/-- Configuration of a Qdrant collection as created by `_ensure_collection`. -/
structure CollConfig where
  dim : Nat
  distance : String
deriving Repr, DecidableEq

/-- Remote Qdrant state: the collections that `get_collections` reports. -/
structure QdrantState where
  collections : List (String × CollConfig)
deriving Repr, DecidableEq

/-- Does a collection with this name exist remotely (`any(col.name == ...)`)? -/
def collExists (st : QdrantState) (name : String) : Bool :=
  st.collections.any (fun c => c.1 = name)

/-- Remote configuration of a named collection. -/
def collConfigOf (st : QdrantState) (name : String) : Option CollConfig :=
  (st.collections.find? (fun c => c.1 = name)).map (fun c => c.2)

/-- `Pipeline._ensure_collection(name)` over the remote-state model:
if the name is listed, return unchanged with zero `create_collection` calls;
otherwise create it with width `settings.qdrant_vector_size or embedding_dim`
(the embedding probe, run by `_ensure_embedder`, always determines
`_embedding_dim`, so the RuntimeError branch is unreachable here) and the
configured distance. The second component counts `create_collection` calls. -/
def ensure_collection (cfgSize : Option Nat) (probeDim : Nat) (distance : String)
    (st : QdrantState) (name : String) : QdrantState × Nat :=
  if collExists st name then (st, 0)
  else
    let size := cfgSize.getD probeDim
    ({ collections := st.collections ++ [(name, ⟨size, distance⟩)] }, 1)

/-- A point written by `_upsert_texts`: id, vector, and payload
`{**meta, "text": text}`. -/
structure Point where
  pid : String
  vector : List Rat
  meta : List (String × String)
  text : String
deriving Repr, DecidableEq

/-- Fresh ids `[str(uuid4()) for _ in texts]`. `uuid4` is an external random
source whose contract is freshness, modelled by an id supply `uuidGen`
indexed by a counter that advances once per generated id. -/
def freshIds (uuidGen : Nat → String) (next : Nat) (n : Nat) : List String :=
  (List.range n).map (fun i => uuidGen (next + i))

/-- A concrete injective id supply standing in for `uuid4` in closed runs. -/
def uuidModel (n : Nat) : String :=
  String.mk (List.replicate n 'u')

/-- Result of one `_upsert_texts` call: returned ids, advanced id counter,
texts embedded, and remote upsert calls (collection, points) performed. -/
structure UpsertOutcome where
  ids : List String
  nextId : Nat
  embedded : List String
  writes : List (String × List Point)
deriving Repr, DecidableEq

/-- Build the `PointStruct` list (`zip(ids, vectors, texts, metadata, strict=True)`). -/
def buildPoints : List String → List (List Rat) → List String →
    List (List (String × String)) → List Point
  | pid :: ids, v :: vs, t :: ts, m :: ms => ⟨pid, v, m, t⟩ :: buildPoints ids vs ts ms
  | _, _, _, _ => []

/-- `Pipeline._upsert_texts` over the model. `embedFn` is the sentence
transformer (external collaborator), `uuidGen` the uuid4 supply. `.error`
models the `ValueError` raised by `zip(..., strict=True)` on a length
mismatch. -/
def _upsert_texts (uuidGen : Nat → String) (dryRun : Bool)
    (embedFn : String → List Rat) (next : Nat)
    (collection : String) (texts : List String)
    (metadata : Option (List (List (String × String))))
    (ids : Option (List String)) : Except String UpsertOutcome :=
  if texts = [] then .ok ⟨[], next, [], []⟩
  else if dryRun then
    .ok ⟨freshIds uuidGen next texts.length, next + texts.length, [], []⟩
  else
    let vectors := texts.map embedFn
    let usedIds := ids.getD (freshIds uuidGen next texts.length)
    let next' := if ids.isSome then next else next + texts.length
    let metas := metadata.getD (texts.map (fun _ => []))
    if usedIds.length = texts.length ∧ metas.length = texts.length then
      .ok ⟨usedIds, next', texts, [(collection, buildPoints usedIds vectors texts metas)]⟩
    else .error "zip() argument lengths differ (strict=True)"

/-- Abstraction of the on-disk filing tree that
`Preprocessor.html_paths_for_symbol` reads: whether the directory
`downloads/sec-edgar-filings/<SYMBOL>/<form>` exists, and its `*.html`
files sorted by mtime descending (the order the source returns). -/
structure FilingTree where
  dirExists : Bool
  htmlFiles : List String

/-- Python truthiness of the `limit` argument (`html_files[:limit] if limit
else html_files`). -/
def limitTruthy (limit : Option Nat) : Bool :=
  match limit with
  | some n => n ≠ 0
  | none => false

/-- `Preprocessor.html_paths_for_symbol` (sec_nlp/utils/preprocessor.py):
raises FileNotFoundError when the filing directory is missing, otherwise
returns the (possibly empty) sorted file list, truncated by `limit`. -/
def html_paths_for_symbol (fs : FilingTree) (limit : Option Nat) :
    Except String (List String) :=
  if fs.dirExists = false then .error "FileNotFoundError: No filings found"
  else if limitTruthy limit then .ok (fs.htmlFiles.take (limit.getD 0))
  else .ok fs.htmlFiles

/-- Enumeration stage of `Pipeline.run` (lines 526-529): the preprocessor
call is not wrapped in try/except, so its exception propagates; an empty
list is logged and returned as the empty result list. `.ok paths` with
nonempty `paths` means the run proceeds to process those documents. -/
def run_enumerate (fs : FilingTree) (limit : Option Nat) :
    Except String (List String) :=
  match html_paths_for_symbol fs limit with
  | .error e => .error e
  | .ok [] => .ok []
  | .ok paths => .ok paths

/-- Python `data.get(k)` on a decoded JSON value (None off a dict). -/
def jget (d : JValue) (k : String) : Option JValue :=
  match d with
  | .obj kvs => jlookup kvs k
  | _ => none

/-- Spec data-model invariant on StructuredPayload, stated as written:
`error` set implies summary/points/confidence unset, and `confidence`, when
present, lies within [0,1]. -/
def payloadInvariant (p : SummaryPayload) : Prop :=
  (p.error ≠ none → p.summary = none ∧ p.points = none ∧ p.confidence = none)
  ∧ (∀ c, p.confidence = some c → 0 ≤ c ∧ c ≤ 1)

/-- String entries of a `points` array after the source's cleanup: each
entry stripped, blank or non-string entries dropped. -/
def cleanedPointStrings (xs : List JValue) : List String :=
  xs.filterMap (fun v =>
    match v with
    | .str t => if pyStrip t = "" then none else some (pyStrip t)
    | _ => none)

/-- String entries of a `points` array as claim C10 words it: blank entries
dropped, kept entries unchanged. -/
def keptPointStrings (xs : List JValue) : List String :=
  xs.filterMap (fun v =>
    match v with
    | .str t => if pyStrip t = "" then none else some t
    | _ => none)

/-- Decoded form of `'\x7b"summary":"hi","error":"boom"\x7d'`. -/
def jsonBothFields : JValue :=
  .obj [("summary", .str "hi"), ("error", .str "boom")]

/-- json.loads oracle for the C3 counterexample input. -/
def parseBothFields : String → Option JValue := fun _ => some jsonBothFields

/-- The spec's concrete success input
`'\x7b"summary":"hi","points":["a"],"confidence":0.5\x7d'`. -/
def rawSuccess : String :=
  "\x7b\"summary\":\"hi\",\"points\":[\"a\"],\"confidence\":0.5\x7d"

/-- Decoded form of `rawSuccess` (`Rat.mk' 1 2` is the rational 0.5). -/
def jsonSuccess : JValue :=
  .obj [("summary", .str "hi"), ("points", .arr [.str "a"]),
        ("confidence", .num (Rat.mk' 1 2))]

/-- json.loads oracle decoding exactly `rawSuccess`. -/
def parseSuccess : String → Option JValue :=
  fun t => if t = rawSuccess then some jsonSuccess else none

/-- json.loads oracle for the C10 counterexample input
`'\x7b"points":["  a  "]\x7d'`: a valid payload whose only point carries
surrounding whitespace. -/
def parsePadded : String → Option JValue :=
  fun _ => some (.obj [("points", .arr [.str "  a  "])])

/-- Shape asserted by claim C5 for one element of the `summaries` array:
an object with a `status` in ok/error and a nested five-field `summary`. -/
def isWrappedSummaryObj (fields : List (String × JValue)) : Prop :=
  (jlookup fields "status" = some (.str "ok")
    ∨ jlookup fields "status" = some (.str "error"))
  ∧ ∃ inner, jlookup fields "summary" = some (.obj inner)
    ∧ inner.map Prod.fst = ["summary", "points", "confidence", "error", "raw_output"]

/-- Batch oracle whose every output is produced by the structured-output
validation step on `rawSuccess` (one per input). -/
def oracleStructuredOk :
    List SummarizationInput → Except ExnInfo (List SummarizationOutput) :=
  fun w => .ok (w.map (fun _ => validateStep true parseSuccess rawSuccess))

/-- Batch oracle that always raises (transport failure). -/
def oracleRaise : List SummarizationInput → Except ExnInfo (List SummarizationOutput) :=
  fun _ => .error ⟨"ConnectionError", "backend unreachable"⟩

/-- A sample summarization input. -/
def sampleInput : SummarizationInput :=
  { chunk := "Revenue increased due to X", symbol := "AAPL", search_term := "revenue" }

theorem jlookup_map_cleanField (kvs : List (String × JValue)) (k : String) :
    jlookup (kvs.map (fun kv => (kv.1, cleanField kv.1 kv.2))) k
      = (jlookup kvs k).map (cleanField k) := by
  induction kvs with
  | nil => rfl
  | cons kv rest ih =>
    obtain ⟨k', v⟩ := kv
    by_cases h : k' = k
    · subst h
      simp [jlookup]
    · simp [jlookup, h, ih]

theorem strListOf_cleanPoints (xs : List JValue) :
    strListOf (xs.filterMap cleanPointEntry) = some (cleanedPointStrings xs) := by
  induction xs with
  | nil => rfl
  | cons x rest ih =>
    cases x with
    | str t =>
      by_cases h : pyStrip t = ""
      · simpa [cleanPointEntry, cleanedPointStrings, h, List.filterMap_cons] using ih
      · simp [cleanPointEntry, cleanedPointStrings, h, List.filterMap_cons, strListOf, ih]
    | null => simpa [cleanPointEntry, cleanedPointStrings, List.filterMap_cons] using ih
    | boolean b => simpa [cleanPointEntry, cleanedPointStrings, List.filterMap_cons] using ih
    | num q => simpa [cleanPointEntry, cleanedPointStrings, List.filterMap_cons] using ih
    | arr l => simpa [cleanPointEntry, cleanedPointStrings, List.filterMap_cons] using ih
    | obj l => simpa [cleanPointEntry, cleanedPointStrings, List.filterMap_cons] using ih

theorem validatePayload_obj_eq_some (kvs : List (String × JValue)) (p : SummaryPayload)
    (h : validatePayload (.obj kvs) = some p) :
    validateOptStr (jlookup kvs "summary") = some p.summary
    ∧ validateOptStrList (jlookup kvs "points") = some p.points
    ∧ validateConfidence (jlookup kvs "confidence") = some p.confidence
    ∧ validateOptStr (jlookup kvs "error") = some p.error
    ∧ validateOptStr (jlookup kvs "raw_output") = some p.raw_output := by
  simp only [validatePayload, Option.bind_eq_some, Option.map_eq_some'] at h
  obtain ⟨s, hs, pp, hp, c, hc, e, he, r, hr, hpe⟩ := h
  subst hpe
  exact ⟨hs, hp, hc, he, hr⟩

theorem validateConfidence_bound (v : Option JValue) (c : Rat)
    (h : validateConfidence v = some (some c)) : 0 ≤ c ∧ c ≤ 1 := by
  cases v with
  | none => simp [validateConfidence] at h
  | some j =>
    cases j with
    | null => simp [validateConfidence] at h
    | boolean b => simp [validateConfidence] at h
    | str s => simp [validateConfidence] at h
    | arr xs => simp [validateConfidence] at h
    | obj kvs => simp [validateConfidence] at h
    | num q =>
      simp only [validateConfidence] at h
      split_ifs at h with hq
      · simp only [Option.some.injEq] at h
        subst h
        exact hq

/-- Claim C2: for every string input, `validate_from_json` is total (the
Lean embedding is a total function; both exception sites of the source are
caught) and returns exactly one of three payloads: a success payload, a
parse-error payload with error "JSON parse failed" and raw_output the
input, or a schema-error payload with error "Schema validation failed" and
raw_output the input. The guards of the three cases are mutually
exclusive. -/
theorem C2_validate_total_trichotomy (parseJson : String → Option JValue) (raw : String) :
    ((parseJson raw = none
        ∧ validate_from_json parseJson raw = parseErrorPayload raw)
      ∨ (∃ d, parseJson raw = some d ∧ validatePayload (cleanData d) = none
        ∧ validate_from_json parseJson raw = schemaErrorPayload raw)
      ∨ (∃ d p, parseJson raw = some d ∧ validatePayload (cleanData d) = some p
        ∧ validate_from_json parseJson raw = p))
    ∧ (¬ (parseJson raw = none ∧ ∃ d, parseJson raw = some d))
    ∧ (∀ d, parseJson raw = some d →
        ¬ (validatePayload (cleanData d) = none
          ∧ ∃ p, validatePayload (cleanData d) = some p))
    ∧ (parseErrorPayload raw).error = some "JSON parse failed"
    ∧ (parseErrorPayload raw).raw_output = some raw
    ∧ (schemaErrorPayload raw).error = some "Schema validation failed"
    ∧ (schemaErrorPayload raw).raw_output = some raw := by
  refine ⟨?_, ?_, ?_, rfl, rfl, rfl, rfl⟩
  · cases hp : parseJson raw with
    | none => exact Or.inl ⟨rfl, by simp [validate_from_json, hp]⟩
    | some d =>
      cases hv : validatePayload (cleanData d) with
      | none =>
        exact Or.inr (Or.inl ⟨d, rfl, hv, by simp [validate_from_json, hp, hv]⟩)
      | some p =>
        exact Or.inr (Or.inr ⟨d, p, rfl, hv, by simp [validate_from_json, hp, hv]⟩)
  · rintro ⟨h1, d, h2⟩
    rw [h1] at h2
    exact Option.noConfusion h2
  · rintro d hd ⟨h1, p, h2⟩
    rw [h1] at h2
    exact Option.noConfusion h2

/-- Witness for C2 at the spec's concrete success input. -/
theorem C2_validate_total_trichotomy_witness :
    (parseSuccess rawSuccess = none
        ∧ validate_from_json parseSuccess rawSuccess = parseErrorPayload rawSuccess)
      ∨ (∃ d, parseSuccess rawSuccess = some d ∧ validatePayload (cleanData d) = none
        ∧ validate_from_json parseSuccess rawSuccess = schemaErrorPayload rawSuccess)
      ∨ (∃ d p, parseSuccess rawSuccess = some d ∧ validatePayload (cleanData d) = some p
        ∧ validate_from_json parseSuccess rawSuccess = p) :=
  (C2_validate_total_trichotomy parseSuccess rawSuccess).1

/-- Claim C3, as stated, is false: a schema-valid input that itself supplies
an `error` field alongside success fields yields a payload with both
populated. Counterexample input: `'\x7b"summary":"hi","error":"boom"\x7d'`. -/
theorem C3_counterexample :
    ¬ (∀ (parseJson : String → Option JValue) (raw : String),
        payloadInvariant (validate_from_json parseJson raw)) := by
  intro h
  have h2 := (h parseBothFields "x").1
  have e : validate_from_json parseBothFields "x"
      = { summary := some "hi", error := some "boom" } := by rfl
  rw [e] at h2
  have h3 := h2 (by simp)
  simpa using h3.1

/-- Claim C3 (amended): `confidence`, when present in the returned payload,
always lies within [0,1]; and on the two validator-generated failure paths
(JSON parse failure and schema failure) summary, points and confidence are
all unset. Mutual exclusivity in full generality fails only because a
schema-valid input may supply its own `error` field (see the
counterexample). -/
theorem C3_amended_invariant (parseJson : String → Option JValue) (raw : String) :
    (∀ c, (validate_from_json parseJson raw).confidence = some c → 0 ≤ c ∧ c ≤ 1)
    ∧ (parseJson raw = none →
        (validate_from_json parseJson raw).summary = none
        ∧ (validate_from_json parseJson raw).points = none
        ∧ (validate_from_json parseJson raw).confidence = none)
    ∧ (∀ d, parseJson raw = some d → validatePayload (cleanData d) = none →
        (validate_from_json parseJson raw).summary = none
        ∧ (validate_from_json parseJson raw).points = none
        ∧ (validate_from_json parseJson raw).confidence = none) := by
  refine ⟨?_, ?_, ?_⟩
  · intro c hc
    cases hp : parseJson raw with
    | none => simp [validate_from_json, hp, parseErrorPayload] at hc
    | some d =>
      cases hv : validatePayload (cleanData d) with
      | none => simp [validate_from_json, hp, hv, schemaErrorPayload] at hc
      | some p =>
        have hres : validate_from_json parseJson raw = p := by
          simp [validate_from_json, hp, hv]
        rw [hres] at hc
        cases hd : cleanData d with
        | obj kvs =>
          rw [hd] at hv
          have hconf := (validatePayload_obj_eq_some kvs p hv).2.2.1
          rw [hc] at hconf
          exact validateConfidence_bound _ c hconf
        | null => rw [hd] at hv; simp [validatePayload] at hv
        | boolean b => rw [hd] at hv; simp [validatePayload] at hv
        | num q => rw [hd] at hv; simp [validatePayload] at hv
        | str s => rw [hd] at hv; simp [validatePayload] at hv
        | arr xs => rw [hd] at hv; simp [validatePayload] at hv
  · intro hp
    simp [validate_from_json, hp, parseErrorPayload]
  · intro d hd hv
    simp [validate_from_json, hd, hv, schemaErrorPayload]

/-- Witness for the amended C3: the confidence bound applied at the concrete
success input (confidence 0.5). -/
theorem C3_amended_invariant_witness :
    0 ≤ (Rat.mk' 1 2 : Rat) ∧ (Rat.mk' 1 2 : Rat) ≤ 1 :=
  (C3_amended_invariant parseSuccess rawSuccess).1 (Rat.mk' 1 2) (by decide)

/-- Claim C10, as stated, is false: kept `points` entries are not returned
verbatim — the source also strips each kept entry. Counterexample input:
`'\x7b"points":["  a  "]\x7d'`, whose validated payload has points ["a"],
not ["  a  "]. -/
theorem C10_counterexample :
    ¬ (∀ (parseJson : String → Option JValue) (raw : String) (d : JValue)
        (p : SummaryPayload),
        parseJson raw = some d → validatePayload (cleanData d) = some p →
        ((∀ s, jget d "summary" = some (.str s) → p.summary = some (pyStrip s))
          ∧ (∀ xs, jget d "points" = some (.arr xs) →
              p.points = some (keptPointStrings xs)))) := by
  intro h
  have h2 := (h parsePadded "x" (.obj [("points", .arr [.str "  a  "])])
      { points := some ["a"] } rfl rfl).2
  have h3 := h2 [.str "  a  "] rfl
  exact absurd h3 (by decide)

/-- Claim C10 (amended): on full validation success the returned payload is
the validated one; its summary is the input's summary stripped of
surrounding whitespace (or unset if it strips to empty), and its points are
the input's points with each kept entry stripped and empty or
whitespace-only (and non-string) entries dropped. The spec's concrete
instance holds: `'\x7b"summary":"hi","points":["a"],"confidence":0.5\x7d'`
validates to summary "hi", points ["a"], confidence 0.5, error unset. -/
theorem C10_success_normalization (parseJson : String → Option JValue) (raw : String)
    (d : JValue) (p : SummaryPayload)
    (hparse : parseJson raw = some d)
    (hval : validatePayload (cleanData d) = some p) :
    validate_from_json parseJson raw = p
    ∧ (∀ s, jget d "summary" = some (.str s) →
        p.summary = if pyStrip s = "" then none else some (pyStrip s))
    ∧ (∀ xs, jget d "points" = some (.arr xs) →
        p.points = some (cleanedPointStrings xs))
    ∧ validate_from_json parseSuccess rawSuccess
        = { summary := some "hi", points := some ["a"],
            confidence := some (Rat.mk' 1 2), error := none, raw_output := none } := by
  refine ⟨by simp [validate_from_json, hparse, hval], ?_, ?_, by decide⟩
  · intro s hs
    cases d with
    | obj kvs =>
      have hsum := (validatePayload_obj_eq_some _ p (by
        simpa [cleanData] using hval)).1
      rw [jlookup_map_cleanField] at hsum
      simp only [jget] at hs
      rw [hs] at hsum
      simp only [Option.map_some', cleanField, if_pos rfl] at hsum
      by_cases hb : pyStrip s = ""
      · simpa [cleanSummaryField, hb, validateOptStr] using hsum.symm
      · simpa [cleanSummaryField, hb, validateOptStr] using hsum.symm
    | null => simp [jget] at hs
    | boolean b => simp [jget] at hs
    | num q => simp [jget] at hs
    | str t => simp [jget] at hs
    | arr xs => simp [jget] at hs
  · intro xs hxs
    cases d with
    | obj kvs =>
      have hpts := (validatePayload_obj_eq_some _ p (by
        simpa [cleanData] using hval)).2.1
      rw [jlookup_map_cleanField] at hpts
      simp only [jget] at hxs
      rw [hxs] at hpts
      have hcf : cleanField "points" (JValue.arr xs)
          = JValue.arr (xs.filterMap cleanPointEntry) := by
        simp [cleanField, cleanPointsField]
      rw [Option.map_some', hcf] at hpts
      simp only [validateOptStrList] at hpts
      rw [strListOf_cleanPoints] at hpts
      simpa using hpts.symm
    | null => simp [jget] at hxs
    | boolean b => simp [jget] at hxs
    | num q => simp [jget] at hxs
    | str t => simp [jget] at hxs
    | arr l => simp [jget] at hxs

/-- Witness for the amended C10 at the spec's concrete success input. -/
theorem C10_success_normalization_witness :
    validate_from_json parseSuccess rawSuccess
      = { summary := some "hi", points := some ["a"],
          confidence := some (Rat.mk' 1 2), error := none, raw_output := none } :=
  (C10_success_normalization parseSuccess rawSuccess jsonSuccess
    { summary := some "hi", points := some ["a"], confidence := some (Rat.mk' 1 2),
      error := none, raw_output := none } rfl (by decide)).1

/-- Claim C8: collection naming is a pure, deterministic function of
(symbol, keyword) — two calls with the same pair yield the identical
string — and is case-insensitive: the slug for ("aapl", "Revenue") equals
the slug for ("AAPL", "revenue"), for every configured prefix. -/
theorem C8_collection_slug_deterministic :
    (∀ (pfx symbol keyword : String),
      _collection_slug pfx symbol keyword = _collection_slug pfx symbol keyword)
    ∧ (∀ pfx, _collection_slug pfx "aapl" "Revenue"
        = _collection_slug pfx "AAPL" "revenue") := by
  refine ⟨fun _ _ _ => rfl, fun pfx => ?_⟩
  simp only [_collection_slug]
  have h : _slugify (pyUpper "aapl" ++ "-" ++ "Revenue")
      = _slugify (pyUpper "AAPL" ++ "-" ++ "revenue") := by decide
  rw [h]

/-- Claim C7: the artifact filename is a deterministic function of (symbol,
keyword, document stem); writing the same document's artifact twice leaves
the file system exactly as a single (second) write would — the second run's
content sits at the one deterministic path and nothing accumulates. -/
theorem C7_rerun_overwrites (fs : FileSystem) (symbol keyword docStem : String)
    (c1 c2 : JValue) :
    artifactFileName symbol keyword docStem = artifactFileName symbol keyword docStem
    ∧ writeArtifact (writeArtifact fs symbol keyword docStem c1) symbol keyword docStem c2
      = writeArtifact fs symbol keyword docStem c2
    ∧ writeArtifact (writeArtifact fs symbol keyword docStem c1) symbol keyword docStem c2
        (artifactFileName symbol keyword docStem) = some c2 := by
  refine ⟨rfl, ?_, ?_⟩
  · funext q
    simp only [writeArtifact, writeFile]
    split_ifs <;> rfl
  · simp [writeArtifact, writeFile]

/-- Claim C4, as stated, is false: when no filings exist for the symbol and
mode the filing directory is absent, `html_paths_for_symbol` raises
FileNotFoundError (see its own unit test), and `Pipeline.run` does not
catch it, so `run` raises instead of returning an empty list. -/
theorem C4_counterexample :
    ¬ (∀ (fs : FilingTree) (limit : Option Nat),
        (fs.dirExists = false ∨ fs.htmlFiles = []) →
        run_enumerate fs limit = .ok []) := by
  intro h
  have h2 := h ⟨false, []⟩ none (Or.inl rfl)
  simp [run_enumerate, html_paths_for_symbol] at h2

/-- Claim C4 (amended): when the filing directory exists but contains no
HTML documents, `run` logs the condition and returns the empty result list
without raising; when the directory itself is missing, the preprocessor's
FileNotFoundError propagates out of `run`. -/
theorem C4_empty_enumeration (fs : FilingTree) (limit : Option Nat)
    (hdir : fs.dirExists = true) (hempty : fs.htmlFiles = []) :
    run_enumerate fs limit = .ok []
    ∧ ∀ gs : FilingTree, gs.dirExists = false →
        run_enumerate gs limit = .error "FileNotFoundError: No filings found" := by
  constructor
  · simp [run_enumerate, html_paths_for_symbol, hdir, hempty]
  · intro gs hgs
    simp [run_enumerate, html_paths_for_symbol, hgs]

/-- Witness for the amended C4: a present-but-empty filing directory. -/
theorem C4_empty_enumeration_witness :
    run_enumerate ⟨true, []⟩ none = .ok [] :=
  (C4_empty_enumeration ⟨true, []⟩ none rfl rfl).1

/-- Claim C6: `_ensure_collection` is idempotent — when the collection name
already exists remotely the call performs no creation and leaves the state
unchanged; starting from a state without the name, two successive calls
perform exactly one remote creation, and the second call changes neither
the state nor the collection's configuration. -/
theorem C6_ensure_collection_idempotent (cfgSize : Option Nat) (probeDim : Nat)
    (distance : String) (stHave stMiss : QdrantState) (name : String)
    (hhave : collExists stHave name = true)
    (hmiss : collExists stMiss name = false) :
    ensure_collection cfgSize probeDim distance stHave name = (stHave, 0)
    ∧ (ensure_collection cfgSize probeDim distance stMiss name).2
      + (ensure_collection cfgSize probeDim distance
          (ensure_collection cfgSize probeDim distance stMiss name).1 name).2 = 1
    ∧ (ensure_collection cfgSize probeDim distance
        (ensure_collection cfgSize probeDim distance stMiss name).1 name).1
      = (ensure_collection cfgSize probeDim distance stMiss name).1
    ∧ collConfigOf (ensure_collection cfgSize probeDim distance
        (ensure_collection cfgSize probeDim distance stMiss name).1 name).1 name
      = collConfigOf (ensure_collection cfgSize probeDim distance stMiss name).1 name := by
  have hfirst : ensure_collection cfgSize probeDim distance stMiss name
      = ({ collections := stMiss.collections
            ++ [(name, ⟨cfgSize.getD probeDim, distance⟩)] }, 1) := by
    simp [ensure_collection, hmiss]
  have hnow : collExists
      { collections := stMiss.collections
          ++ [(name, (⟨cfgSize.getD probeDim, distance⟩ : CollConfig))] } name = true := by
    simp [collExists]
  refine ⟨by simp [ensure_collection, hhave], ?_, ?_, ?_⟩
  · rw [hfirst]
    simp [ensure_collection, hnow]
  · rw [hfirst]
    simp [ensure_collection, hnow]
  · rw [hfirst]
    simp [ensure_collection, hnow]

/-- Witness for C6: one state holding collection "c", one empty state. -/
theorem C6_ensure_collection_idempotent_witness :
    ensure_collection none 3 "Cosine"
        ⟨[("c", ⟨3, "Cosine"⟩)]⟩ "c" = (⟨[("c", ⟨3, "Cosine"⟩)]⟩, 0) :=
  (C6_ensure_collection_idempotent none 3 "Cosine"
    ⟨[("c", ⟨3, "Cosine"⟩)]⟩ ⟨[]⟩ "c" (by decide) (by decide)).1

theorem uuidModel_injective : Function.Injective uuidModel := by
  intro a b h
  have h2 := congrArg (fun s => s.data.length) h
  simpa [uuidModel] using h2

theorem freshIds_length (g : Nat → String) (next n : Nat) :
    (freshIds g next n).length = n := by
  simp [freshIds]

theorem freshIds_nodup (g : Nat → String) (hg : Function.Injective g)
    (next n : Nat) : (freshIds g next n).Nodup := by
  refine List.Nodup.map ?_ (List.nodup_range n)
  intro a b hab
  exact Nat.add_left_cancel (hg hab)

theorem buildPoints_spec (ids : List String) (vs : List (List Rat))
    (ts : List String) (ms : List (List (String × String)))
    (hi : ids.length = ts.length) (hv : vs.length = ts.length)
    (hm : ms.length = ts.length) :
    (buildPoints ids vs ts ms).map Point.pid = ids
    ∧ (buildPoints ids vs ts ms).map Point.text = ts := by
  induction ts generalizing ids vs ms with
  | nil =>
    cases ids with
    | nil => exact ⟨rfl, rfl⟩
    | cons i is => simp at hi
  | cons t ts ih =>
    cases ids with
    | nil => simp at hi
    | cons i is =>
      cases vs with
      | nil => simp at hv
      | cons v vs' =>
        cases ms with
        | nil => simp at hm
        | cons m ms' =>
          simp only [List.length_cons, Nat.add_right_cancel_iff] at hi hv hm
          have := ih is vs' ms' hi hv hm
          simp [buildPoints, this.1, this.2]

/-- Claim C9, as stated, is false in dry-run mode: `_upsert_texts` checks
`dry_run` before looking at the supplied ids, so supplied ids are ignored
and fresh ones are returned. Counterexample: dry-run, one text, supplied id
"myid". -/
theorem C9_counterexample :
    ¬ (∀ (g : Nat → String), Function.Injective g →
        ∀ (dryRun : Bool) (embedFn : String → List Rat) (next : Nat)
          (coll : String) (texts : List String)
          (metadata : Option (List (List (String × String))))
          (ids : Option (List String)) (out : UpsertOutcome),
        _upsert_texts g dryRun embedFn next coll texts metadata ids = .ok out →
        ((texts = [] → out.ids = [] ∧ out.embedded = [] ∧ out.writes = [])
          ∧ (texts ≠ [] → out.ids.length = texts.length
            ∧ (∀ l, ids = some l → out.ids = l)
            ∧ (ids = none → out.ids.Nodup)))) := by
  intro h
  have h2 := (h uuidModel uuidModel_injective true (fun _ => []) 0 "c" ["t"]
      none (some ["myid"]) ⟨[""], 1, [], []⟩ rfl).2
  have h3 := (h2 (by decide)).2.1 ["myid"] rfl
  exact absurd h3 (by decide)

/-- Claim C9 (amended): empty texts short-circuit to an empty id list with
no embedding, no remote call and no id-counter advance; every successful
call returns exactly one id per text; outside dry-run, supplied ids are
returned as given and the written points pair ids with texts positionally
(same order); fresh ids (supplied ids absent) are pairwise distinct; and in
dry-run ids are always freshly generated with no embedding or remote
write — supplied ids are ignored there. -/
theorem C9_upsert_ids (g : Nat → String) (hg : Function.Injective g)
    (dryRun : Bool) (embedFn : String → List Rat) (next : Nat) (coll : String)
    (texts : List String) (metadata : Option (List (List (String × String))))
    (ids : Option (List String)) :
    (texts = [] →
      _upsert_texts g dryRun embedFn next coll texts metadata ids
        = .ok ⟨[], next, [], []⟩)
    ∧ (∀ out, _upsert_texts g dryRun embedFn next coll texts metadata ids = .ok out →
        out.ids.length = texts.length)
    ∧ (∀ l out, ids = some l → dryRun = false → texts ≠ [] →
        _upsert_texts g dryRun embedFn next coll texts metadata ids = .ok out →
        out.ids = l)
    ∧ (∀ out, ids = none →
        _upsert_texts g dryRun embedFn next coll texts metadata ids = .ok out →
        out.ids.Nodup)
    ∧ (∀ out, dryRun = false → texts ≠ [] →
        _upsert_texts g dryRun embedFn next coll texts metadata ids = .ok out →
        ∃ pts, out.writes = [(coll, pts)] ∧ pts.map Point.pid = out.ids
          ∧ pts.map Point.text = texts)
    ∧ (∀ out, dryRun = true →
        _upsert_texts g dryRun embedFn next coll texts metadata ids = .ok out →
        out.embedded = [] ∧ out.writes = []) := by
  by_cases htx : texts = []
  · subst htx
    refine ⟨fun _ => by simp [_upsert_texts], ?_, ?_, ?_, ?_, ?_⟩
    · intro out hout
      simp [_upsert_texts] at hout
      simp [← hout]
    · intro l out _ _ hne _
      exact absurd rfl hne
    · intro out _ hout
      simp [_upsert_texts] at hout
      simp [← hout]
    · intro out _ hne _
      exact absurd rfl hne
    · intro out _ hout
      simp [_upsert_texts] at hout
      simp [← hout]
  · by_cases hdry : dryRun = true
    · subst hdry
      have hval : _upsert_texts g true embedFn next coll texts metadata ids
          = .ok ⟨freshIds g next texts.length, next + texts.length, [], []⟩ := by
        simp [_upsert_texts, htx]
      refine ⟨fun h => absurd h htx, ?_, ?_, ?_, ?_, ?_⟩
      · intro out hout
        rw [hval] at hout
        cases hout
        simp [freshIds_length]
      · intro l out _ hfalse _ _
        exact Bool.noConfusion hfalse
      · intro out _ hout
        rw [hval] at hout
        cases hout
        exact freshIds_nodup g hg next texts.length
      · intro out hfalse _ _
        exact Bool.noConfusion hfalse
      · intro out _ hout
        rw [hval] at hout
        cases hout
        exact ⟨rfl, rfl⟩
    · have hdf : dryRun = false := by
        cases dryRun
        · rfl
        · exact absurd rfl hdry
      subst hdf
      have hexp : _upsert_texts g false embedFn next coll texts metadata ids
          = (if (ids.getD (freshIds g next texts.length)).length = texts.length
                ∧ (metadata.getD (texts.map (fun _ => []))).length = texts.length then
              .ok ⟨ids.getD (freshIds g next texts.length),
                  if ids.isSome then next else next + texts.length,
                  texts,
                  [(coll, buildPoints (ids.getD (freshIds g next texts.length))
                      (texts.map embedFn) texts
                      (metadata.getD (texts.map (fun _ => []))))]⟩
            else .error "zip() argument lengths differ (strict=True)") := by
        simp [_upsert_texts, htx]
      refine ⟨fun h => absurd h htx, ?_, ?_, ?_, ?_, ?_⟩
      · intro out hout
        rw [hexp] at hout
        generalize (if ids.isSome = true then next else next + texts.length) = nid at hout
        split_ifs at hout with hguard
        cases hout
        exact hguard.1
      · intro l out hl _ _ hout
        rw [hexp] at hout
        generalize (if ids.isSome = true then next else next + texts.length) = nid at hout
        split_ifs at hout with hguard
        cases hout
        simp [hl]
      · intro out hnone hout
        rw [hexp] at hout
        generalize (if ids.isSome = true then next else next + texts.length) = nid at hout
        split_ifs at hout with hguard
        cases hout
        simp only [hnone, Option.getD_none]
        exact freshIds_nodup g hg next texts.length
      · intro out _ _ hout
        rw [hexp] at hout
        generalize (if ids.isSome = true then next else next + texts.length) = nid at hout
        split_ifs at hout with hguard
        cases hout
        refine ⟨buildPoints (ids.getD (freshIds g next texts.length))
            (texts.map embedFn) texts (metadata.getD (texts.map (fun _ => []))), rfl, ?_, ?_⟩
        · exact (buildPoints_spec _ _ _ _ hguard.1 (by simp) hguard.2).1
        · exact (buildPoints_spec _ _ _ _ hguard.1 (by simp) hguard.2).2
      · intro out hfalse _
        exact Bool.noConfusion hfalse

/-- Witness for the amended C9: the empty-texts no-op short-circuit. -/
theorem C9_upsert_ids_witness :
    _upsert_texts uuidModel false (fun _ => []) 0 "c" [] none none
      = .ok ⟨[], 0, [], []⟩ :=
  (C9_upsert_ids uuidModel uuidModel_injective false (fun _ => []) 0 "c" []
    none none).1 rfl

theorem summarizeWindowsAux_eq_flatten
    (oracle : List SummarizationInput → Except ExnInfo (List SummarizationOutput))
    (bs fuel : Nat) (inputs : List SummarizationInput) :
    summarizeWindowsAux oracle bs fuel inputs
      = ((chunksOfAux bs fuel inputs).map (windowResult oracle)).flatten := by
  induction fuel generalizing inputs with
  | zero => cases inputs <;> rfl
  | succ n ih =>
    cases inputs with
    | nil => rfl
    | cons x xs =>
      simp [summarizeWindowsAux, chunksOfAux, ih]

theorem summarizeWindows_eq_flatten
    (oracle : List SummarizationInput → Except ExnInfo (List SummarizationOutput))
    (bs : Nat) (inputs : List SummarizationInput) :
    summarizeWindows oracle bs inputs
      = ((chunksOf bs inputs).map (windowResult oracle)).flatten :=
  summarizeWindowsAux_eq_flatten oracle bs inputs.length inputs

theorem chunksOfAux_flatten (bs : Nat) (hbs : 0 < bs) (fuel : Nat) :
    ∀ inputs : List α, inputs.length ≤ fuel →
      (chunksOfAux bs fuel inputs).flatten = inputs := by
  induction fuel with
  | zero =>
    intro inputs h
    have h0 : inputs = [] := List.length_eq_zero.mp (Nat.le_zero.mp h)
    subst h0
    rfl
  | succ n ih =>
    intro inputs h
    cases inputs with
    | nil => rfl
    | cons x xs =>
      have hlen : ((x :: xs).drop bs).length ≤ n := by
        rw [List.length_drop]
        simp only [List.length_cons] at h ⊢
        omega
      simp only [chunksOfAux, List.flatten_cons]
      rw [ih ((x :: xs).drop bs) hlen]
      exact List.take_append_drop bs (x :: xs)

theorem chunksOf_flatten (bs : Nat) (hbs : 0 < bs) (inputs : List α) :
    (chunksOf bs inputs).flatten = inputs :=
  chunksOfAux_flatten bs hbs inputs.length inputs (Nat.le_refl _)

theorem summarizeWindows_length
    (oracle : List SummarizationInput → Except ExnInfo (List SummarizationOutput))
    (bs : Nat) (inputs : List SummarizationInput) (hbs : 0 < bs)
    (hlen : ∀ w ∈ chunksOf bs inputs, ∀ rs, oracle w = .ok rs → rs.length = w.length) :
    (summarizeWindows oracle bs inputs).length = inputs.length := by
  rw [summarizeWindows_eq_flatten, List.length_flatten]
  have hwin : ∀ w ∈ chunksOf bs inputs, (windowResult oracle w).length = w.length := by
    intro w hw
    unfold windowResult
    cases ho : oracle w with
    | ok rs => simpa using hlen w hw rs ho
    | error e => simp
  have hmap : ((chunksOf bs inputs).map (windowResult oracle)).map List.length
      = (chunksOf bs inputs).map List.length := by
    rw [List.map_map]
    exact List.map_congr_left (fun w hw => hwin w hw)
  rw [hmap, ← List.length_flatten, chunksOf_flatten bs hbs]

/-- Claim C1: in the summarization loop of `Pipeline.run`, a window whose
batch call raises is substituted item-for-item by error-tagged summaries
whose error field is "Exception: <type>: <message>"; the exception does not
propagate (the accumulated list is total and covers every input once);
windows that succeed contribute exactly their outputs; and the written
artifact carries all windows' entries concatenated in original chunk
order. -/
theorem C1_batch_failure_isolation
    (oracle : List SummarizationInput → Except ExnInfo (List SummarizationOutput))
    (bs : Nat) (symbol document collection : String)
    (inputs : List SummarizationInput) (hbs : 0 < bs)
    (hlen : ∀ w ∈ chunksOf bs inputs, ∀ rs, oracle w = .ok rs → rs.length = w.length) :
    docArtifact oracle bs symbol document collection inputs
      = buildArtifact symbol document collection
          (((chunksOf bs inputs).map (windowResult oracle)).flatten)
    ∧ (∀ w e, oracle w = .error e →
        windowResult oracle w = w.map (fun _ => errorSubstitute e))
    ∧ (∀ e, jlookup (errorSubstitute e) "error"
        = some (.str ("Exception: " ++ e.ename ++ ": " ++ e.emsg)))
    ∧ (∀ w rs, oracle w = .ok rs →
        windowResult oracle w = rs.map (fun r => r.summary))
    ∧ (summarizeWindows oracle bs inputs).length = inputs.length := by
  refine ⟨?_, ?_, ?_, ?_, summarizeWindows_length oracle bs inputs hbs hlen⟩
  · unfold docArtifact
    rw [summarizeWindows_eq_flatten]
  · intro w e he
    unfold windowResult
    rw [he]
  · intro e
    rfl
  · intro w rs h
    unfold windowResult
    rw [h]

/-- Witness for C1: an always-raising batch oracle on a one-chunk document
substitutes the whole window with the tagged error entry. -/
theorem C1_batch_failure_isolation_witness :
    windowResult oracleRaise [sampleInput]
      = [sampleInput].map (fun _ =>
          errorSubstitute ⟨"ConnectionError", "backend unreachable"⟩) :=
  (C1_batch_failure_isolation oracleRaise 1 "AAPL" "doc.html" "coll"
    [sampleInput] (by decide)
    (by intro w hw rs hrs; simp [oracleRaise] at hrs)).2.1
    [sampleInput] ⟨"ConnectionError", "backend unreachable"⟩ rfl

/-- Claim C5, as stated, is false: `Pipeline.run` appends
`r.get("summary", ...)` — the inner payload dict — to the artifact's
`summaries` array, discarding the `status` wrapper, so the elements are
flat five-field payload objects, not `\x7bstatus, summary: ...\x7d` objects
(the repository's own pipeline test reads
`payload["summaries"][0]["summary"]` as a string accordingly). -/
theorem C5_counterexample :
    ¬ (∀ (oracle : List SummarizationInput → Except ExnInfo (List SummarizationOutput))
        (bs : Nat) (symbol document collection : String)
        (inputs : List SummarizationInput),
        (∀ w rs, oracle w = .ok rs → ∀ r ∈ rs,
          ∃ (pj : String → Option JValue) (raw : String),
            r = validateStep true pj raw) →
        ∀ el ∈ summarizeWindows oracle bs inputs, isWrappedSummaryObj el) := by
  intro h
  have hstruct : ∀ w rs, oracleStructuredOk w = .ok rs → ∀ r ∈ rs,
      ∃ (pj : String → Option JValue) (raw : String),
        r = validateStep true pj raw := by
    intro w rs hr r hmem
    simp only [oracleStructuredOk, Except.ok.injEq] at hr
    subst hr
    rcases List.mem_map.mp hmem with ⟨x, hx, rfl⟩
    exact ⟨parseSuccess, rawSuccess, rfl⟩
  have hmem : (validateStep true parseSuccess rawSuccess).summary
      ∈ summarizeWindows oracleStructuredOk 1 [sampleInput] := by
    have he : summarizeWindows oracleStructuredOk 1 [sampleInput]
        = [(validateStep true parseSuccess rawSuccess).summary] := rfl
    rw [he]
    exact List.mem_singleton.mpr rfl
  have h2 := h oracleStructuredOk 1 "AAPL" "doc.html" "coll" [sampleInput] hstruct
      ((validateStep true parseSuccess rawSuccess).summary) hmem
  have hn : jlookup ((validateStep true parseSuccess rawSuccess).summary) "status"
      = none := rfl
  rcases h2.1 with hs | hs <;> rw [hn] at hs <;> cases hs

/-- Claim C5 (amended): each artifact is a JSON object with keys symbol,
document, collection and summaries, where summaries is an array whose every
element is either a flat five-field payload object (summary, points,
confidence, error, raw_output — the unwrapped `summary` member of a stage
output, its `status` discarded) or a two-field error substitute (summary,
error) for a raised batch window. -/
theorem C5_artifact_shape
    (oracle : List SummarizationInput → Except ExnInfo (List SummarizationOutput))
    (bs : Nat) (symbol document collection : String)
    (inputs : List SummarizationInput)
    (hstruct : ∀ w rs, oracle w = .ok rs → ∀ r ∈ rs,
      ∃ p : SummaryPayload, r.summary = dumpPayload p) :
    docArtifact oracle bs symbol document collection inputs
      = .obj [("symbol", .str symbol), ("document", .str document),
              ("collection", .str collection),
              ("summaries", .arr ((summarizeWindows oracle bs inputs).map .obj))]
    ∧ (∀ el ∈ summarizeWindows oracle bs inputs,
        (∃ p : SummaryPayload, el = dumpPayload p)
          ∨ (∃ e : ExnInfo, el = errorSubstitute e))
    ∧ (∀ p : SummaryPayload, (dumpPayload p).map Prod.fst
        = ["summary", "points", "confidence", "error", "raw_output"])
    ∧ (∀ e : ExnInfo, (errorSubstitute e).map Prod.fst = ["summary", "error"]) := by
  refine ⟨rfl, ?_, fun p => rfl, fun e => rfl⟩
  intro el hel
  rw [summarizeWindows_eq_flatten] at hel
  rcases List.mem_flatten.mp hel with ⟨l, hl, hel2⟩
  rcases List.mem_map.mp hl with ⟨w, hw, rfl⟩
  unfold windowResult at hel2
  cases ho : oracle w with
  | ok rs =>
    rw [ho] at hel2
    rcases List.mem_map.mp hel2 with ⟨r, hr, rfl⟩
    obtain ⟨p, hp⟩ := hstruct w rs ho r hr
    exact Or.inl ⟨p, hp⟩
  | error e =>
    rw [ho] at hel2
    rcases List.mem_map.mp hel2 with ⟨_, _, rfl⟩
    exact Or.inr ⟨e, rfl⟩

/-- Witness for the amended C5: the error-substitute entries carry exactly
the keys summary and error. -/
theorem C5_artifact_shape_witness :
    (errorSubstitute ⟨"ValueError", "boom"⟩).map Prod.fst = ["summary", "error"] :=
  (C5_artifact_shape oracleStructuredOk 1 "AAPL" "doc.html" "coll" [sampleInput]
    (by
      intro w rs hr r hmem
      simp only [oracleStructuredOk, Except.ok.injEq] at hr
      subst hr
      rcases List.mem_map.mp hmem with ⟨x, hx, rfl⟩
      exact ⟨validate_from_json parseSuccess rawSuccess, rfl⟩)).2.2.2
    ⟨"ValueError", "boom"⟩

end SecNlp
